import Mathlib

/-!
Verification of the terminal session core of the iced-term repository.

The repository wraps an external terminal-emulation crate; the code under
src/ (src/backend/pty.rs and src/_component.rs) owns the session lifecycle:
feeding bytes to the escape-sequence processor, scroll / resize / write
entry points, and the renderable-cell extraction (including the
inverse-video fg/bg swap, which is written directly in src).

Shallow embedding conventions:
  - bytes are Nat (values < 256), colors are Nat (the source only moves
    them around and swaps them, it never computes with them);
  - the escape-sequence processor and the screen-buffer mutation
    operations live in the external crate, not under src/: those are
    modelled from the spec (each such definition says so in its doc
    comment);
  - the session entry points (update, resize, scroll, write_to_pty,
    cells) are translated from src/backend/pty.rs;
  - the message mapping of the byte-stream reader is translated from
    src/_component.rs.
-/

namespace IcedTerm

/-- One grid cell: character, foreground, background, and the inverse
style flag (the only flag the extraction in src consults). -/
structure Cell where
  c : Char
  fg : Nat
  bg : Nat
  inverse : Bool
deriving DecidableEq, Repr

/-- Renderable cell, mirroring the fields pushed by Pty.cells in
src/backend/pty.rs (column, line, content, display_offset, fg, bg). -/
structure RenderableCell where
  column : Nat
  line : Nat
  content : Char
  display_offset : Nat
  fg : Nat
  bg : Nat
deriving DecidableEq, Repr

/-- Default foreground color index. -/
def defaultFg : Nat := 7

/-- Default background color index. -/
def defaultBg : Nat := 0

/-- Blank cell used for erased / fresh grid positions. -/
def blankCell : Cell := { c := ' ', fg := defaultFg, bg := defaultBg, inverse := false }

/-- Blank row of a given width. -/
def blankRow (cols : Nat) : List Cell := List.replicate cols blankCell

/-- Modelled from the spec: the Screen Buffer state (grid, cursor,
pending attributes, scrollback, display offset) of spec section 3.  The
concrete grid type lives in the external terminal crate, not under
src/. -/
structure TermState where
  rows : Nat
  cols : Nat
  grid : List (List Cell)
  cursorRow : Nat
  cursorCol : Nat
  pendingFg : Nat
  pendingBg : Nat
  pendingInverse : Bool
  scrollback : List (List Cell)
  displayOffset : Nat
deriving DecidableEq, Repr

/-- Maximum number of retained scrollback rows (spec section 3: bounded,
oldest evicted first). -/
def maxScrollback : Nat := 10000

/-- Modelled from the spec: append an evicted top row to the scrollback,
discarding the oldest row once the retained bound is exceeded. -/
def pushScrollback (sb : List (List Cell)) (row : List Cell) : List (List Cell) :=
  let sb2 := sb ++ [row]
  if maxScrollback < sb2.length then sb2.tail else sb2

/-- Set one cell of the grid in place (no-op outside the grid bounds). -/
def setCell (g : List (List Cell)) (i j : Nat) (cell : Cell) : List (List Cell) :=
  g.set i ((g.getD i []).set j cell)

/-- Modelled from the spec: line feed; moves the cursor down one row, or
evicts the top grid row into the scrollback when already at the bottom
(spec section 4.2, write_char wrap behavior). -/
def linefeed (s : TermState) : TermState :=
  if s.cursorRow + 1 < s.rows then { s with cursorRow := s.cursorRow + 1 }
  else
    { s with
      scrollback := pushScrollback s.scrollback (s.grid.headD []),
      grid := s.grid.tail ++ [blankRow s.cols] }

/-- Modelled from the spec: carriage return moves the cursor to column 0. -/
def carriageReturn (s : TermState) : TermState := { s with cursorCol := 0 }

/-- Modelled from the spec: write_char places the character at the cursor
with the pending attributes, advances the cursor column, and wraps to the
next row when the column would pass the right margin (spec section 4.2). -/
def write_char (s : TermState) (ch : Char) : TermState :=
  let cell : Cell := { c := ch, fg := s.pendingFg, bg := s.pendingBg, inverse := s.pendingInverse }
  let s2 := { s with grid := setCell s.grid s.cursorRow s.cursorCol cell }
  if s2.cursorCol + 1 < s2.cols then { s2 with cursorCol := s2.cursorCol + 1 }
  else linefeed { s2 with cursorCol := 0 }

/-- Modelled from the spec: move_cursor clamps both coordinates into the
grid bounds (spec section 4.2). -/
def move_cursor (s : TermState) (r c : Nat) : TermState :=
  { s with cursorRow := min r (s.rows - 1), cursorCol := min c (s.cols - 1) }

/-- Modelled from the spec: erase the whole screen with blank cells. -/
def eraseScreen (s : TermState) : TermState :=
  { s with grid := List.replicate s.rows (blankRow s.cols) }

/-- Modelled from the spec: erase a row from a starting column to the end
of the line. -/
def eraseRowFrom (row : List Cell) (fromCol : Nat) : List Cell :=
  (List.range row.length).map fun j => if fromCol ≤ j then blankCell else row.getD j blankCell

/-- Modelled from the spec: erase from the cursor to the end of the
current line. -/
def eraseLine (s : TermState) : TermState :=
  { s with grid := s.grid.set s.cursorRow (eraseRowFrom (s.grid.getD s.cursorRow []) s.cursorCol) }

/-- Modelled from the spec: fold one SGR parameter into the pending
(foreground, background, inverse) attribute triple (spec section 4.2,
set_attribute). -/
def sgrStep (acc : Nat × Nat × Bool) (p : Nat) : Nat × Nat × Bool :=
  if p = 0 then (defaultFg, defaultBg, false)
  else if p = 7 then (acc.1, acc.2.1, true)
  else if p = 27 then (acc.1, acc.2.1, false)
  else if 30 ≤ p ∧ p ≤ 37 then (p - 30, acc.2.1, acc.2.2)
  else if 40 ≤ p ∧ p ≤ 47 then (acc.1, p - 40, acc.2.2)
  else acc

/-- Modelled from the spec: apply an SGR parameter list to the pending
attribute state; only the pending attributes change. -/
def applySgr (s : TermState) (ps : List Nat) : TermState :=
  let r := ps.foldl sgrStep (s.pendingFg, s.pendingBg, s.pendingInverse)
  { s with pendingFg := r.1, pendingBg := r.2.1, pendingInverse := r.2.2 }

/-- Parser state of the escape-sequence processor.  Modelled from the
spec (section 4.1): ground, escape-received, and CSI-parameter-collecting
with a bounded pending buffer. -/
inductive ParserState where
  | ground : ParserState
  | escape : ParserState
  | csi : List Nat → Nat → ParserState
deriving DecidableEq, Repr

/-- Bound on the pending CSI parameter buffer (spec section 4.1:
bounded-length pending-sequence buffer with reset-to-ground fallback). -/
def pendingLimit : Nat := 16

/-- Session state mirroring the Pty struct of src/backend/pty.rs: the
terminal screen buffer, the parser state, and the OS pty window geometry
(updated by on_resize). -/
structure Pty where
  term : TermState
  parser : ParserState
  ptyRows : Nat
  ptyCols : Nat
deriving DecidableEq, Repr

/-- Modelled from the spec: dispatch a completed CSI sequence (cursor
position, erase screen, erase line, SGR); unrecognized final bytes are
silently ignored (spec section 4.1). -/
def dispatchCsi (s : TermState) (ps : List Nat) (final : Nat) : TermState :=
  if final = 0x48 then move_cursor s (ps.getD 0 1 - 1) (ps.getD 1 1 - 1)
  else if final = 0x4A then eraseScreen s
  else if final = 0x4B then eraseLine s
  else if final = 0x6D then applySgr s ps
  else s

/-- Whether a byte continues a pending CSI sequence (parameter digit or
separator). -/
def csiContinue (b : Nat) : Bool := (0x30 ≤ b && b ≤ 0x39) || b = 0x3B

/-- Modelled from the spec: one step of the escape-sequence processor
(Processor.advance of the external crate, called per byte by Pty.update
in src/backend/pty.rs): printable bytes print, LF/CR move the cursor,
ESC starts a sequence, malformed or unrecognized sequence bytes reset the
parser to ground and are discarded (spec sections 4.1 and 7,
MalformedSequence). -/
def advance (p : Pty) (b : Nat) : Pty :=
  match p.parser with
  | ParserState.ground =>
    if b = 0x1B then { p with parser := ParserState.escape }
    else if b = 0x0A then { p with term := linefeed p.term }
    else if b = 0x0D then { p with term := carriageReturn p.term }
    else if 0x20 ≤ b ∧ b ≤ 0x7E then { p with term := write_char p.term (Char.ofNat b) }
    else p
  | ParserState.escape =>
    if b = 0x5B then { p with parser := ParserState.csi [] 0 }
    else { p with parser := ParserState.ground }
  | ParserState.csi ps cur =>
    if 0x30 ≤ b ∧ b ≤ 0x39 then
      { p with parser := ParserState.csi ps (min (cur * 10 + (b - 0x30)) 9999) }
    else if b = 0x3B then
      if pendingLimit ≤ ps.length + 1 then { p with parser := ParserState.ground }
      else { p with parser := ParserState.csi (ps ++ [cur]) 0 }
    else if 0x40 ≤ b ∧ b ≤ 0x7E then
      { p with term := dispatchCsi p.term (ps ++ [cur]) b, parser := ParserState.ground }
    else { p with parser := ParserState.ground }

/-- Rows visible under the current display offset: a window of rows rows
taken from scrollback ++ grid, starting len(scrollback) - display_offset
rows from the top.  Modelled from the spec (sections 3 and 4.5); the
display iterator itself lives in the external crate. -/
def visibleRows (s : TermState) : List (List Cell) :=
  (((s.scrollback ++ s.grid).drop (s.scrollback.length - s.displayOffset)).take s.rows)

/-- Resolution of one stored cell into a renderable cell, translated from
the loop body of Pty.cells in src/backend/pty.rs: fg and bg are swapped
exactly when the inverse flag is set, and every cell carries the
snapshot-wide display offset. -/
def resolveCell (off : Nat) (i j : Nat) (cell : Cell) : RenderableCell :=
  { column := j
    line := i
    content := cell.c
    display_offset := off
    fg := if cell.inverse then cell.bg else cell.fg
    bg := if cell.inverse then cell.fg else cell.bg }

/-- Renderable-cell extraction, translated from Pty.cells in
src/backend/pty.rs: iterate the visible rows in order and resolve each
cell. -/
def cells (s : TermState) : List RenderableCell :=
  (List.range (visibleRows s).length).flatMap fun i =>
    (List.range ((visibleRows s).getD i []).length).map fun j =>
      resolveCell s.displayOffset i j (((visibleRows s).getD i []).getD j blankCell)

/-- Cell stored at a (row, column) position of a list-of-rows grid,
blank outside the bounds. -/
def cellAt (g : List (List Cell)) (i j : Nat) : Cell := (g.getD i []).getD j blankCell

/-- Snapshot entry point: Pty.cells takes the receiver immutably, so it
returns the extraction and leaves the session unchanged. -/
def snapshot (p : Pty) : List RenderableCell × Pty := (cells p.term, p)

/-- Modelled from the spec: Scroll::Delta clamps the display offset into
[0, len(scrollback)] (spec section 4.2); the clamping lives in the
external crate's scroll_display. -/
def scroll_display (s : TermState) (delta : Int) : TermState :=
  { s with displayOffset :=
      (min (max ((s.displayOffset : Int) + delta) 0) (s.scrollback.length : Int)).toNat }

/-- Scroll entry point, translated from Pty.scroll in src/backend/pty.rs:
forward the delta to scroll_display, then return a fresh extraction. -/
def ptyScroll (p : Pty) (delta : Int) : List RenderableCell × Pty :=
  let p2 := { p with term := scroll_display p.term delta }
  (cells p2.term, p2)

/-- Modelled from the spec: grid reallocation on resize, top-left
aligned, preserving overlapping content and padding with blanks (spec
sections 3 and 4.2). -/
def resizeGrid (g : List (List Cell)) (r c : Nat) : List (List Cell) :=
  (List.range r).map fun i => (List.range c).map fun j => (g.getD i []).getD j blankCell

/-- Modelled from the spec: Screen Buffer resize; reallocates the grid
preserving the top-left overlap, clamps the cursor, and does not alter
the scrollback (spec section 4.2). -/
def termResize (s : TermState) (r c : Nat) : TermState :=
  { s with
    rows := r
    cols := c
    grid := resizeGrid s.grid r c
    cursorRow := min s.cursorRow (r - 1)
    cursorCol := min s.cursorCol (c - 1) }

/-- Resize entry point, translated from Pty.resize in
src/backend/pty.rs: only when both dimensions are nonzero, propagate the
new window size to the OS pty and resize the screen buffer; in every
case return a fresh extraction. -/
def ptyResize (p : Pty) (rows cols : Nat) : List RenderableCell × Pty :=
  let p2 :=
    if 0 < rows ∧ 0 < cols then
      { p with term := termResize p.term rows cols, ptyRows := rows, ptyCols := cols }
    else p
  (cells p2.term, p2)

/-- Update entry point, translated from Pty.update in
src/backend/pty.rs: feed each byte through the processor in order, then
return a fresh extraction. -/
def update (p : Pty) (data : List Nat) : List RenderableCell × Pty :=
  let p2 := data.foldl advance p
  (cells p2.term, p2)

/-- Write entry point, translated from Pty.write_to_pty in
src/backend/pty.rs: scroll_display(Scroll::Bottom) sets the display
offset to 0, then the single byte (the Rust expression c as u8, which
keeps only the low 8 bits of the scalar value) is written to the pty
handle.  The returned list is the byte sequence handed to write_all. -/
def write_to_pty (p : Pty) (c : Char) : Pty × List Nat :=
  let p2 := { p with term := { p.term with displayOffset := 0 } }
  (p2, [c.toNat % 256])

/-- Modelled from the spec: the complete encoding of one input unit, the
UTF-8 byte sequence of the Unicode scalar value (spec sections 4.3 and
6: keystrokes forwarded verbatim to write). -/
def utf8Encode (c : Char) : List Nat :=
  let n := c.toNat
  if n < 0x80 then [n]
  else if n < 0x800 then [0xC0 + n / 64, 0x80 + n % 64]
  else if n < 0x10000 then [0xE0 + n / 4096, 0x80 + n / 64 % 64, 0x80 + n % 64]
  else [0xF0 + n / 262144, 0x80 + n / 4096 % 64, 0x80 + n / 64 % 64, 0x80 + n % 64]

/-- Messages of the presentation bridge, translated from the Message enum
of src/_component.rs.  There are exactly three variants: data arrival,
keystroke, and ignored poll. -/
inductive Message where
  | DataUpdated : Nat → List Nat → Message
  | CharacterReceived : Nat → Char → Message
  | Ignored : Nat → Message
deriving DecidableEq, Repr

/-- Result of one OS read on the pty handle: ok with the bytes read
(empty exactly on end-of-stream) or an error. -/
def ReadResult : Type := Except Unit (List Nat)

/-- Reader step, translated from Pty.read in src/backend/pty.rs: an ok
read returns its buffer (even when empty, i.e. at end-of-stream); an
errored read yields none. -/
def ptyRead (result : Except Unit (List Nat)) : Option (List Nat) :=
  match result with
  | Except.ok buf => some buf
  | Except.error _ => none

/-- Subscription step, translated from ITermView.on_data_received in
src/_component.rs: a some result becomes DataUpdated, a none result
becomes Ignored. -/
def on_data_received_step (id : Nat) (result : Except Unit (List Nat)) : Message :=
  match ptyRead result with
  | some data => Message.DataUpdated id data
  | none => Message.Ignored id

/-- Whether a message is the data-delivery variant. -/
def isDataUpdated : Message → Bool
  | Message.DataUpdated _ _ => true
  | _ => false

/-- Screen-buffer well-formedness: positive geometry, cursor inside the
grid bounds, grid of exactly rows rows each of exactly cols cells, and
display offset within the scrollback length. -/
def TermInv (s : TermState) : Prop :=
  0 < s.rows ∧ 0 < s.cols ∧
  s.cursorRow < s.rows ∧ s.cursorCol < s.cols ∧
  s.grid.length = s.rows ∧ (∀ row ∈ s.grid, row.length = s.cols) ∧
  s.displayOffset ≤ s.scrollback.length

instance (s : TermState) : Decidable (TermInv s) := by
  unfold TermInv
  exact inferInstance

/-- Example cell used by concrete witnesses. -/
def exampleCell : Cell := { c := 'x', fg := 2, bg := 3, inverse := false }

/-- Example inverse-flagged cell used by concrete witnesses. -/
def exampleCellInv : Cell := { c := 'y', fg := 4, bg := 5, inverse := true }

/-- Example screen-buffer state used by concrete witnesses: a 2 by 2 grid
with one scrollback row, scrolled one row into history. -/
def exampleTerm : TermState :=
  { rows := 2
    cols := 2
    grid := [[exampleCell, exampleCellInv], [exampleCell, exampleCell]]
    cursorRow := 0
    cursorCol := 1
    pendingFg := defaultFg
    pendingBg := defaultBg
    pendingInverse := false
    scrollback := [[exampleCell, exampleCell]]
    displayOffset := 1 }

/-- Example session state used by concrete witnesses. -/
def examplePty : Pty :=
  { term := exampleTerm, parser := ParserState.ground, ptyRows := 2, ptyCols := 2 }

/-! Helper lemmas. -/

/-- Reading an in-range index of a mapped range evaluates the function. -/
theorem getD_map_range {α : Type} (n : Nat) (f : Nat → α) (d : α) (i : Nat) (h : i < n) :
    ((List.range n).map f).getD i d = f i := by
  have hlen : i < ((List.range n).map f).length := by simpa using h
  rw [List.getD_eq_getElem _ _ hlen, List.getElem_map, List.getElem_range]

/-- Rows of a grid with uniform row length, read through getD, keep that
length at in-range indices. -/
theorem getD_row_length (g : List (List Cell)) (i cols : Nat)
    (hlen : ∀ row ∈ g, row.length = cols) (hi : i < g.length) :
    (g.getD i []).length = cols := by
  rw [List.getD_eq_getElem _ _ hi]
  exact hlen _ (List.getElem_mem hi)

/-- Replacing one row of a uniform-length grid with a row of the same
length keeps every row length. -/
theorem set_row_uniform (g : List (List Cell)) (i : Nat) (newRow : List Cell) (cols : Nat)
    (hlen : ∀ row ∈ g, row.length = cols) (hnew : newRow.length = cols) :
    ∀ row ∈ g.set i newRow, row.length = cols := by
  intro row hrow
  rcases List.mem_or_eq_of_mem_set hrow with h | h
  · exact hlen row h
  · exact h ▸ hnew

/-- Appending one row to the scrollback never shrinks it. -/
theorem pushScrollback_length_ge (sb : List (List Cell)) (row : List Cell) :
    sb.length ≤ (pushScrollback sb row).length := by
  simp only [pushScrollback]
  split <;> simp

/-- The carriage-return step preserves the screen-buffer invariant. -/
theorem carriageReturn_inv (s : TermState) (h : TermInv s) : TermInv (carriageReturn s) := by
  obtain ⟨h1, h2, h3, h4, h5, h6, h7⟩ := h
  exact ⟨h1, h2, h3, h2, h5, h6, h7⟩

/-- The line-feed step preserves the screen-buffer invariant. -/
theorem linefeed_inv (s : TermState) (h : TermInv s) : TermInv (linefeed s) := by
  obtain ⟨h1, h2, h3, h4, h5, h6, h7⟩ := h
  unfold linefeed
  split
  · exact ⟨h1, h2, by assumption, h4, h5, h6, h7⟩
  · refine ⟨h1, h2, h3, h4, ?_, ?_, ?_⟩
    · simp only [List.length_append, List.length_tail, List.length_singleton]
      omega
    · intro row hrow
      rcases List.mem_append.1 hrow with hmem | hmem
      · exact h6 row (List.mem_of_mem_tail hmem)
      · rcases List.mem_singleton.1 hmem with rfl
        exact List.length_replicate ..
    · exact Nat.le_trans h7 (pushScrollback_length_ge ..)

/-- The write-char step preserves the screen-buffer invariant. -/
theorem write_char_inv (s : TermState) (ch : Char) (h : TermInv s) :
    TermInv (write_char s ch) := by
  obtain ⟨h1, h2, h3, h4, h5, h6, h7⟩ := h
  have hrowlen : ((s.grid.getD s.cursorRow []).set s.cursorCol
      { c := ch, fg := s.pendingFg, bg := s.pendingBg, inverse := s.pendingInverse }).length
      = s.cols := by
    rw [List.length_set]
    exact getD_row_length s.grid s.cursorRow s.cols h6 (h5 ▸ h3)
  have hset : ∀ row ∈ setCell s.grid s.cursorRow s.cursorCol
      { c := ch, fg := s.pendingFg, bg := s.pendingBg, inverse := s.pendingInverse },
      row.length = s.cols :=
    set_row_uniform s.grid s.cursorRow _ s.cols h6 hrowlen
  have hsetlen : (setCell s.grid s.cursorRow s.cursorCol
      { c := ch, fg := s.pendingFg, bg := s.pendingBg, inverse := s.pendingInverse }).length
      = s.rows := by
    unfold setCell
    rw [List.length_set]
    exact h5
  simp only [write_char]
  split
  · exact ⟨h1, h2, h3, by assumption, hsetlen, hset, h7⟩
  · exact linefeed_inv _ ⟨h1, h2, h3, h2, hsetlen, hset, h7⟩

/-- The move-cursor step preserves the screen-buffer invariant. -/
theorem move_cursor_inv (s : TermState) (r c : Nat) (h : TermInv s) :
    TermInv (move_cursor s r c) := by
  obtain ⟨h1, h2, h3, h4, h5, h6, h7⟩ := h
  exact ⟨h1, h2, by simp [move_cursor]; omega, by simp [move_cursor]; omega, h5, h6, h7⟩

/-- The erase-screen step preserves the screen-buffer invariant. -/
theorem eraseScreen_inv (s : TermState) (h : TermInv s) : TermInv (eraseScreen s) := by
  obtain ⟨h1, h2, h3, h4, h5, h6, h7⟩ := h
  refine ⟨h1, h2, h3, h4, List.length_replicate .., ?_, h7⟩
  intro row hrow
  rcases List.eq_of_mem_replicate hrow with rfl
  exact List.length_replicate ..

/-- The erase-line step preserves the screen-buffer invariant. -/
theorem eraseLine_inv (s : TermState) (h : TermInv s) : TermInv (eraseLine s) := by
  obtain ⟨h1, h2, h3, h4, h5, h6, h7⟩ := h
  have hrowlen : (eraseRowFrom (s.grid.getD s.cursorRow []) s.cursorCol).length = s.cols := by
    unfold eraseRowFrom
    rw [List.length_map, List.length_range]
    exact getD_row_length s.grid s.cursorRow s.cols h6 (h5 ▸ h3)
  refine ⟨h1, h2, h3, h4, ?_, ?_, h7⟩
  · unfold eraseLine
    rw [List.length_set]
    exact h5
  · exact set_row_uniform s.grid s.cursorRow _ s.cols h6 hrowlen

/-- The SGR step touches only the pending attributes, so it preserves the
screen-buffer invariant. -/
theorem applySgr_inv (s : TermState) (ps : List Nat) (h : TermInv s) :
    TermInv (applySgr s ps) :=
  h

/-- Dispatching any completed CSI sequence preserves the screen-buffer
invariant. -/
theorem dispatchCsi_inv (s : TermState) (ps : List Nat) (final : Nat) (h : TermInv s) :
    TermInv (dispatchCsi s ps final) := by
  unfold dispatchCsi
  split
  · exact move_cursor_inv _ _ _ h
  split
  · exact eraseScreen_inv _ h
  split
  · exact eraseLine_inv _ h
  split
  · exact applySgr_inv _ _ h
  · exact h

/-- One processor step preserves the screen-buffer invariant, whatever
the byte and whatever the parser state. -/
theorem advance_inv (p : Pty) (b : Nat) (h : TermInv p.term) : TermInv ((advance p b).term) := by
  obtain ⟨t, parser, pr, pc⟩ := p
  cases parser with
  | ground =>
    simp only [advance]
    split
    · exact h
    split
    · exact linefeed_inv _ h
    split
    · exact carriageReturn_inv _ h
    split
    · exact write_char_inv _ _ h
    · exact h
  | escape =>
    simp only [advance]
    split <;> exact h
  | csi ps cur =>
    simp only [advance]
    split
    · exact h
    split
    · split <;> exact h
    split
    · exact dispatchCsi_inv _ _ _ h
    · exact h

/-- Folding the processor over any byte list preserves the screen-buffer
invariant. -/
theorem foldl_advance_inv (data : List Nat) (p : Pty) (h : TermInv p.term) :
    TermInv ((data.foldl advance p).term) := by
  induction data generalizing p with
  | nil => exact h
  | cons b rest ih => exact ih (advance p b) (advance_inv p b h)

/-! Claim theorems. -/

/-- C1: feeding any byte sequence through update preserves the
screen-buffer invariant (in particular the cursor stays inside the grid
bounds and the grid keeps its geometry), and in a pending escape or CSI
state any byte that does not continue the sequence returns the parser to
ground, so malformed input is absorbed locally. -/
theorem update_safe :
    (∀ (p : Pty) (data : List Nat), TermInv p.term → TermInv (((update p data).2).term)) ∧
    (∀ (p : Pty) (ps : List Nat) (cur b : Nat),
      p.parser = ParserState.csi ps cur → csiContinue b = false →
      (advance p b).parser = ParserState.ground) ∧
    (∀ (p : Pty) (b : Nat), p.parser = ParserState.escape → b ≠ 0x5B →
      (advance p b).parser = ParserState.ground) := by
  refine ⟨?_, ?_, ?_⟩
  · intro p data h
    exact foldl_advance_inv data p h
  · intro p ps cur b hp hb
    obtain ⟨t, parser, pr, pc⟩ := p
    simp only at hp
    subst hp
    simp only [csiContinue, Bool.or_eq_false_iff, decide_eq_false_iff_not,
      Bool.and_eq_false_iff] at hb
    simp only [advance]
    rw [if_neg, if_neg]
    · split <;> rfl
    · exact hb.2
    · rcases hb.1 with h | h <;> simp [decide_eq_false_iff_not] at h <;> omega
  · intro p b hp hb
    obtain ⟨t, parser, pr, pc⟩ := p
    simp only at hp
    subst hp
    simp only [advance]
    rw [if_neg hb]

/-- Witness for C1 at concrete inputs: a byte sequence mixing a CSI
cursor move, printable bytes, a non-ASCII byte and a line feed preserves
the invariant on the example state; a bell byte aborts a pending CSI
sequence to ground; an unrecognized post-escape byte returns to ground. -/
theorem update_safe_witness :
    TermInv (((update examplePty
      [0x1B, 0x5B, 0x31, 0x3B, 0x32, 0x48, 0x68, 0x69, 0xFF, 0x0A]).2).term) ∧
    (advance { examplePty with parser := ParserState.csi [3] 1 } 0x07).parser
      = ParserState.ground ∧
    (advance { examplePty with parser := ParserState.escape } 0x41).parser
      = ParserState.ground :=
  ⟨update_safe.1 examplePty [0x1B, 0x5B, 0x31, 0x3B, 0x32, 0x48, 0x68, 0x69, 0xFF, 0x0A]
      (by decide),
   update_safe.2.1 { examplePty with parser := ParserState.csi [3] 1 } [3] 1 0x07 rfl (by decide),
   update_safe.2.2 { examplePty with parser := ParserState.escape } 0x41 rfl (by decide)⟩

/-- C2: every cell of the visible window is extracted at its (line,
column) position with foreground and background swapped exactly when its
inverse flag is set, and unchanged otherwise. -/
theorem cells_resolve_inverse (s : TermState) (i j : Nat)
    (hi : i < (visibleRows s).length)
    (hj : j < ((visibleRows s).getD i []).length) :
    ∃ rc ∈ cells s, rc.line = i ∧ rc.column = j ∧
      rc.content = (cellAt (visibleRows s) i j).c ∧
      rc.fg = (if (cellAt (visibleRows s) i j).inverse then (cellAt (visibleRows s) i j).bg
        else (cellAt (visibleRows s) i j).fg) ∧
      rc.bg = (if (cellAt (visibleRows s) i j).inverse then (cellAt (visibleRows s) i j).fg
        else (cellAt (visibleRows s) i j).bg) := by
  refine ⟨resolveCell s.displayOffset i j (cellAt (visibleRows s) i j), ?_, rfl, rfl, rfl, rfl, rfl⟩
  simp only [cells, List.mem_flatMap, List.mem_map, List.mem_range]
  exact ⟨i, hi, j, hj, rfl⟩

/-- Witness for C2 at a concrete state: the inverse-flagged cell at
visible position (1, 1) of the example state is extracted with swapped
colors. -/
theorem cells_resolve_inverse_witness :
    ∃ rc ∈ cells exampleTerm, rc.line = 1 ∧ rc.column = 1 ∧
      rc.content = (cellAt (visibleRows exampleTerm) 1 1).c ∧
      rc.fg = (if (cellAt (visibleRows exampleTerm) 1 1).inverse then
        (cellAt (visibleRows exampleTerm) 1 1).bg else (cellAt (visibleRows exampleTerm) 1 1).fg) ∧
      rc.bg = (if (cellAt (visibleRows exampleTerm) 1 1).inverse then
        (cellAt (visibleRows exampleTerm) 1 1).fg else (cellAt (visibleRows exampleTerm) 1 1).bg) :=
  cells_resolve_inverse exampleTerm 1 1 (by decide) (by decide)

/-- C3: scroll clamps the display offset into [0, len(scrollback)]; a
delta at least the remaining history lands exactly on len(scrollback),
and a delta at most the negated current offset lands exactly on 0. -/
theorem scroll_clamps (p : Pty) (delta : Int) :
    ((ptyScroll p delta).2.term.displayOffset ≤ p.term.scrollback.length) ∧
    (((p.term.scrollback.length : Int) - (p.term.displayOffset : Int) ≤ delta) →
      (ptyScroll p delta).2.term.displayOffset = p.term.scrollback.length) ∧
    ((delta ≤ -(p.term.displayOffset : Int)) →
      (ptyScroll p delta).2.term.displayOffset = 0) := by
  refine ⟨?_, ?_, ?_⟩ <;>
    simp only [ptyScroll, scroll_display] <;>
    omega

/-- Witness for C3 at a concrete state: a huge positive delta clamps to
the scrollback length, a huge negative delta clamps to zero. -/
theorem scroll_clamps_witness :
    (ptyScroll examplePty 100).2.term.displayOffset = examplePty.term.scrollback.length ∧
    (ptyScroll examplePty (-100)).2.term.displayOffset = 0 :=
  ⟨(scroll_clamps examplePty 100).2.1 (by decide),
   (scroll_clamps examplePty (-100)).2.2 (by decide)⟩

/-- C4 (code divergence): writing the euro sign sends the single
truncated byte 172 (the Rust cast c as u8), not the complete three-byte
encoding [226, 130, 172] of the scalar value. -/
theorem write_truncates_euro :
    (write_to_pty examplePty '€').2 = [172] ∧
    utf8Encode '€' = [226, 130, 172] ∧
    (write_to_pty examplePty '€').2 ≠ utf8Encode '€' := by
  decide

/-- C5 (counterexample): at end-of-stream the reader yields the bytes
read (empty), and the collaborator receives the DataUpdated message — the
same data-delivery constructor as an ordinary read — so no distinct
session-closed notification is produced. -/
theorem read_eof_not_distinct :
    on_data_received_step 7 (Except.ok []) = Message.DataUpdated 7 [] ∧
    isDataUpdated (on_data_received_step 7 (Except.ok [])) = true ∧
    on_data_received_step 7 (Except.ok [72]) = Message.DataUpdated 7 [72] ∧
    on_data_received_step 7 (Except.error ()) = Message.Ignored 7 := by
  decide

/-- C5 (amended): every successful read, end-of-stream included, is
delivered as DataUpdated with the bytes read (empty exactly at
end-of-stream), and only an errored read yields the Ignored message; the
message type has no dedicated session-closed variant. -/
theorem read_messages (id : Nat) (bs : List Nat) :
    on_data_received_step id (Except.ok bs) = Message.DataUpdated id bs ∧
    on_data_received_step id (Except.error ()) = Message.Ignored id :=
  ⟨rfl, rfl⟩

/-- C6 (counterexample): a resize request of 65535 by 65535 — far beyond
any sane terminal size — is not a no-op: the grid geometry and the OS pty
window size both change. -/
theorem resize_no_sane_maximum :
    (ptyResize examplePty 65535 65535).2.term.rows = 65535 ∧
    (ptyResize examplePty 65535 65535).2.ptyRows = 65535 ∧
    examplePty.term.rows = 2 ∧ examplePty.ptyRows = 2 :=
  ⟨rfl, rfl, rfl, rfl⟩

/-- C6 (amended): a resize request with zero rows or zero columns is a
no-op — neither the pty window size nor the grid changes — and a snapshot
of the unchanged state is still returned. -/
theorem resize_zero_noop (p : Pty) (rows cols : Nat) (h : rows = 0 ∨ cols = 0) :
    (ptyResize p rows cols).2 = p ∧ (ptyResize p rows cols).1 = cells p.term := by
  have hcond : ¬(0 < rows ∧ 0 < cols) := by rcases h with h | h <;> simp [h]
  simp [ptyResize, hcond]

/-- Witness for the amended C6: a zero-row resize of the example state
changes nothing and returns the unchanged extraction. -/
theorem resize_zero_noop_witness :
    (ptyResize examplePty 0 5).2 = examplePty ∧
    (ptyResize examplePty 0 5).1 = cells examplePty.term :=
  resize_zero_noop examplePty 0 5 (Or.inl rfl)

/-- C7: growing a resize (new dimensions at least the old ones) preserves
every cell of the old top-left region at the same coordinates and leaves
the scrollback unaltered. -/
theorem resize_preserves_topleft (p : Pty) (r c i j : Nat)
    (hr : p.term.rows ≤ r) (hc : p.term.cols ≤ c)
    (hi : i < p.term.rows) (hj : j < p.term.cols) :
    cellAt (ptyResize p r c).2.term.grid i j = cellAt p.term.grid i j ∧
    (ptyResize p r c).2.term.scrollback = p.term.scrollback := by
  have hcond : (0 < r ∧ 0 < c) :=
    ⟨Nat.lt_of_le_of_lt (Nat.zero_le i) (Nat.lt_of_lt_of_le hi hr),
     Nat.lt_of_le_of_lt (Nat.zero_le j) (Nat.lt_of_lt_of_le hj hc)⟩
  simp only [ptyResize, if_pos hcond]
  refine ⟨?_, rfl⟩
  show cellAt (resizeGrid p.term.grid r c) i j = cellAt p.term.grid i j
  unfold cellAt resizeGrid
  rw [getD_map_range r _ [] i (Nat.lt_of_lt_of_le hi hr),
    getD_map_range c _ blankCell j (Nat.lt_of_lt_of_le hj hc)]

/-- Witness for C7 at a concrete state: growing the example 2 by 2 grid
to 3 by 3 keeps the cell at (0, 1) and the scrollback. -/
theorem resize_preserves_topleft_witness :
    cellAt (ptyResize examplePty 3 3).2.term.grid 0 1 = cellAt examplePty.term.grid 0 1 ∧
    (ptyResize examplePty 3 3).2.term.scrollback = examplePty.term.scrollback :=
  resize_preserves_topleft examplePty 3 3 0 1 (by decide) (by decide) (by decide) (by decide)

/-- C8: writing any input character first pushes the display to the live
bottom: whatever the display offset was, the session state at the moment
the byte is handed to the pty write handle has display offset 0. -/
theorem write_scrolls_to_bottom (p : Pty) (c : Char) :
    ((write_to_pty p c).1).term.displayOffset = 0 :=
  rfl

/-- C9: snapshot extraction is side-effect-free and idempotent: it leaves
the session unchanged, and two consecutive snapshots with nothing in
between return identical cell sequences. -/
theorem snapshot_pure_idempotent (p : Pty) :
    (snapshot p).2 = p ∧ (snapshot p).1 = (snapshot ((snapshot p).2)).1 :=
  ⟨rfl, rfl⟩

/-- C10: every renderable cell of one extraction carries the same
display_offset, namely the screen buffer's display offset at the moment
of extraction. -/
theorem cells_display_offset_constant (s : TermState) (rc : RenderableCell)
    (h : rc ∈ cells s) : rc.display_offset = s.displayOffset := by
  simp only [cells, List.mem_flatMap, List.mem_map, List.mem_range] at h
  obtain ⟨i, _, j, _, rfl⟩ := h
  rfl

/-- Witness for C10 at a concrete state: a concrete member of the example
extraction carries the example display offset. -/
theorem cells_display_offset_constant_witness :
    (resolveCell 1 0 0 exampleCell).display_offset = exampleTerm.displayOffset :=
  cells_display_offset_constant exampleTerm (resolveCell 1 0 0 exampleCell) (by decide)

end IcedTerm
